import Mathlib

/-!
Verification development for the cider-song-playlist-manager caching layer.

Shallow embedding of `src/src/main.ts` (class `PlaylistCache`) and of the
reconciliation / mutation logic in the modal component
(`src/unnamed/part_000`: `loadPlaylists`, `checkSongInPlaylistWithCache`,
`applyChanges`, `removeSongFromPlaylist`).

Modelling conventions:
- the durable key-value store (`localStorage`) is a `Storage` record with one
  field per persisted key (`playlist-manager-cache`, `playlist-manager-settings`,
  `playlist-manager-modified`); each field is a parsed value, an `absent`
  marker (key missing), or a `corrupt` marker (JSON.parse throws);
- timestamps are `Int` milliseconds; `new Date()` instants are passed in as
  explicit parameters;
- remote calls are injected as functions; a paginated track fetch is
  `fetch : Nat → Option (List Track)` from page offset to the page content,
  `none` modelling a failed call;
- the cooperative abort flag is modelled by the step index at which the flag
  becomes set (`abortStep`), with one step per suspension span (one per batch);
  `abortedAt abortStep t` is the value the flag would show when read at step `t`.
-/

/-- `CachedPlaylist` record persisted in the cache table (main.ts lines 1007-1014). -/
structure CachedPlaylist where
  id : String
  name : String
  tracks : List String
  lastModified : Int
  artworkUrl : Option String
  cachedAt : Int
deriving DecidableEq

/-- `CacheSettings` (main.ts lines 1016-1019). -/
structure CacheSettings where
  enabled : Bool
  expirationMinutes : Int
deriving DecidableEq

/-- A track record as read from the remote API: the identifier fields consulted
by the source (`track.id`, `track.attributes?.playParams?.id`,
`...catalogId`, `...reportingId`, `track.type`); an absent field is `""`,
matching the `String(x || "")` coercions in the source. -/
structure Track where
  id : String
  playParamsId : String
  catalogId : String
  reportingId : String
  type : String
deriving DecidableEq

/-- One entry of the (already filtered, editable) playlist listing handed to a
reconciliation pass. -/
structure ListedPlaylist where
  id : String
  name : String
deriving DecidableEq

/-- One user-approved toggle, as filtered in `applyChanges`
(part_000 lines 425-427): the playlist id and the requested membership state. -/
structure ChangeItem where
  id : String
  isInPlaylist : Bool
deriving DecidableEq

/-- Persisted value under `playlist-manager-cache`: missing key, unparseable
text (carrying the raw text length, used only by the stats size estimate), or
a parsed array of records. -/
inductive StoredCache where
  | absent : StoredCache
  | corrupt : Nat → StoredCache
  | list : List CachedPlaylist → StoredCache
deriving DecidableEq

/-- Persisted value under `playlist-manager-settings`: missing, unparseable, or
a parsed partial record (each field may be missing). -/
inductive StoredSettings where
  | absent : StoredSettings
  | corrupt : StoredSettings
  | record : Option Bool → Option Int → StoredSettings
deriving DecidableEq

/-- Persisted value under `playlist-manager-modified`. -/
inductive StoredModified where
  | absent : StoredModified
  | corrupt : StoredModified
  | list : List String → StoredModified
deriving DecidableEq

/-- The durable key-value store: the three persisted records. -/
structure Storage where
  cacheRec : StoredCache
  settingsRec : StoredSettings
  modifiedRec : StoredModified
deriving DecidableEq

/-- Result record of `PlaylistCache.getStats` (main.ts lines 1214-1247);
`cacheSizeKB` is the numeric part of the `cacheSize` string. -/
structure CacheStats where
  totalPlaylists : Nat
  expiredPlaylists : Nat
  modifiedPlaylists : Nat
  cacheSizeKB : Nat
  oldestCache : Option Int
deriving DecidableEq

/-- `PlaylistCache.defaultSettings` (main.ts lines 1026-1029). -/
def defaultSettings : CacheSettings :=
  { enabled := true, expirationMinutes := 5 }

/-- `PlaylistCache.getSettings` (main.ts lines 1034-1044): spread of the parsed
partial record over the defaults; missing or corrupt persisted data falls back
to the defaults. -/
def getSettings (st : Storage) : CacheSettings :=
  match st.settingsRec with
  | .absent => defaultSettings
  | .corrupt => defaultSettings
  | .record e m =>
    { enabled := e.getD defaultSettings.enabled,
      expirationMinutes := m.getD defaultSettings.expirationMinutes }

/-- `PlaylistCache.saveSettings` (main.ts lines 1049-1058): merge the partial
argument over the current settings and persist the full record. -/
def saveSettings (st : Storage) (en : Option Bool) (em : Option Int) : Storage :=
  let current := getSettings st
  let updated : CacheSettings :=
    { enabled := en.getD current.enabled,
      expirationMinutes := em.getD current.expirationMinutes }
  { st with settingsRec := .record (some updated.enabled) (some updated.expirationMinutes) }

/-- Parse of the persisted cache array, ignoring the enabled flag: `[]` for a
missing key or unparseable text (the catch branch of `getCache`). -/
def readStoredCache : StoredCache → List CachedPlaylist
  | .absent => []
  | .corrupt _ => []
  | .list l => l

/-- `PlaylistCache.getCache` (main.ts lines 1063-1085): `[]` when caching is
disabled, otherwise the parsed stored array (date revival is the identity in
this embedding). -/
def getCache (st : Storage) : List CachedPlaylist :=
  if (getSettings st).enabled then readStoredCache st.cacheRec else []

/-- `PlaylistCache.getCachedPlaylist` (main.ts lines 1090-1108): find the entry,
then lazily expire it when `now - cachedAt > expirationMinutes * 60 * 1000`. -/
def getCachedPlaylist (st : Storage) (playlistId : String) (now : Int) :
    Option CachedPlaylist :=
  match (getCache st).find? (fun p => p.id == playlistId) with
  | none => none
  | some playlist =>
    let settings := getSettings st
    let expirationMs := settings.expirationMinutes * 60 * 1000
    let age := now - playlist.cachedAt
    if expirationMs < age then none else some playlist

/-- `PlaylistCache.isSongInPlaylist` (main.ts lines 1113-1118): tri-state cached
membership verdict (`none` = unknown). -/
def isSongInPlaylist (st : Storage) (playlistId songId : String) (now : Int) :
    Option Bool :=
  match getCachedPlaylist st playlistId now with
  | none => none
  | some playlist => some (playlist.tracks.contains songId)

/-- One iteration of the `playlists.forEach` body of `updatePlaylists`
(main.ts lines 1132-1144): replace the first entry with the same id, else
append; either way stamp `cachedAt := now`. -/
def upsertOne (now : Int) (cache : List CachedPlaylist) (p : CachedPlaylist) :
    List CachedPlaylist :=
  match cache with
  | [] => [{ p with cachedAt := now }]
  | q :: rest =>
    if q.id == p.id then { p with cachedAt := now } :: rest
    else q :: upsertOne now rest p

/-- `PlaylistCache.updatePlaylists` (main.ts lines 1123-1151): no-op when
caching is disabled; otherwise fold the upserts over the current cache and
persist the result. -/
def updatePlaylists (st : Storage) (playlists : List CachedPlaylist) (now : Int) :
    Storage :=
  if (getSettings st).enabled then
    { st with cacheRec := .list (playlists.foldl (upsertOne now) (getCache st)) }
  else st

/-- The `playlistIds.forEach` union of `markPlaylistsModified`
(main.ts lines 1174-1178): append each id not already present. -/
def addIds (m : List String) (ids : List String) : List String :=
  ids.foldl (fun acc i => if acc.contains i then acc else acc ++ [i]) m

/-- `PlaylistCache.markPlaylistsModified` (main.ts lines 1169-1185): idempotent
union into the durable set; when the stored JSON is unparseable the catch
leaves the store untouched. -/
def markPlaylistsModified (st : Storage) (playlistIds : List String) : Storage :=
  match st.modifiedRec with
  | .corrupt => st
  | .absent => { st with modifiedRec := .list (addIds [] playlistIds) }
  | .list m => { st with modifiedRec := .list (addIds m playlistIds) }

/-- `PlaylistCache.getModifiedPlaylists` (main.ts lines 1190-1198). -/
def getModifiedPlaylists (st : Storage) : List String :=
  match st.modifiedRec with
  | .absent => []
  | .corrupt => []
  | .list m => m

/-- `PlaylistCache.clearModifiedPlaylists` (main.ts lines 1203-1209): a blind
`localStorage.removeItem` of the whole set. -/
def clearModifiedPlaylists (st : Storage) : Storage :=
  { st with modifiedRec := .absent }

/-- Abstracts `(localStorage.getItem(CACHE_KEY) || '').length`, the length of
the persisted cache text read by `getStats` (main.ts line 1237): 0 for a
missing key; for stored text the embedding keeps only a structural measure of
the record, since no claim depends on the exact byte count. -/
def storedCacheLen : StoredCache → Nat
  | .absent => 0
  | .corrupt n => n
  | .list l =>
    2 + (l.map (fun p =>
      p.id.length + p.name.length + (p.tracks.map String.length).sum + 64)).sum

/-- `PlaylistCache.getStats` (main.ts lines 1214-1247). -/
def getStats (st : Storage) (now : Int) : CacheStats :=
  let cache := getCache st
  let settings := getSettings st
  let modified := getModifiedPlaylists st
  let expirationMs := settings.expirationMinutes * 60 * 1000
  let expired := cache.filter (fun p => expirationMs < now - p.cachedAt)
  let oldest :=
    match cache with
    | [] => none
    | c :: _ => some (cache.foldl (fun o p => if p.cachedAt < o then p.cachedAt else o) c.cachedAt)
  { totalPlaylists := cache.length,
    expiredPlaylists := expired.length,
    modifiedPlaylists := modified.length,
    cacheSizeKB := storedCacheLen st.cacheRec / 1024,
    oldestCache := oldest }

/-- `searchId.replace(/^i\./, '')`: strip one leading library-id marker
(part_000 lines 367, 370). -/
def stripLib (s : String) : String :=
  if s.startsWith "i." then s.drop 2 else s

/-- Boolean infix test on character lists, the semantics of JavaScript
`hay.includes(needle)`. -/
def listInfix (needle : List Char) : List Char → Bool
  | [] => needle.isEmpty
  | hay@(_ :: rest) => needle.isPrefixOf hay || listInfix needle rest

/-- JavaScript `hay.includes(needle)` on strings. -/
def strIncludes (hay needle : String) : Bool :=
  listInfix needle.toList hay.toList

/-- The paginated track-list loop shared by `checkSongInPlaylistWithCache`
(part_000 lines 300-335) and `removeSongFromPlaylist` (part_000 lines 507-538):
fetch pages of 100 starting at `offset`, stop on a failed fetch (treated as end
of pagination), an empty or short page, or the `offset > 1000` break after the
offset increment.  `left` is the number of page steps still allowed before that
break fires: the loop body breaks once the incremented offset exceeds 1000, so
`left = (1000 - offset) / 100` and the break corresponds to `left = 0`. -/
def paginateGo (fetch : Nat → Option (List Track)) :
    Nat → Nat → List Track → List Track
  | left, offset, acc =>
    match fetch offset with
    | none => acc
    | some tracks =>
      if tracks.isEmpty then acc
      else
        let acc2 := acc ++ tracks
        match left with
        | 0 => acc2
        | left2 + 1 =>
          if tracks.length == 100 then paginateGo fetch left2 (offset + 100) acc2
          else acc2

/-- Full pagination from offset 0 (`limit = 100`, break after `offset > 1000`,
hence at most 11 fetched pages). -/
def paginate (fetch : Nat → Option (List Track)) : List Track :=
  paginateGo fetch 10 0 []

/-- Identifier extraction of `checkSongInPlaylistWithCache`
(part_000 lines 340-363): per track keep `track.id` (falling back to
`playParams.id`) and `playParams.catalogId` (falling back to `reportingId`),
dropping empty strings, flattened in track order. -/
def extractIds (tracks : List Track) : List String :=
  tracks.foldr (fun t acc =>
    let libraryId := if t.id != "" then t.id else t.playParamsId
    let catalogId := if t.catalogId != "" then t.catalogId else t.reportingId
    ((if libraryId != "" then [libraryId] else []) ++
     (if catalogId != "" then [catalogId] else [])) ++ acc) []

/-- The per-pair identifier match of `checkSongInPlaylistWithCache`
(part_000 lines 366-379): exact, prefix-stripped exact, and substring forms in
both directions. -/
def idMatches (searchId trackId : String) : Bool :=
  let cleanSearchId := stripLib searchId
  let cleanTrackId := stripLib trackId
  trackId == searchId || cleanTrackId == cleanSearchId ||
  strIncludes trackId searchId || strIncludes searchId trackId ||
  strIncludes cleanTrackId cleanSearchId || strIncludes cleanSearchId cleanTrackId

/-- `checkSongInPlaylistWithCache` (part_000 lines 294-410): paginate the track
list, extract all identifier forms, decide membership, and build the
`CachedPlaylist` snapshot (both timestamps are `new Date()` at fetch time,
passed here as `tNow`; the snapshot carries no artwork). -/
def checkSongInPlaylistWithCache (fetch : String → Nat → Option (List Track))
    (pl : ListedPlaylist) (searchIds : List String) (tNow : Int) :
    Bool × CachedPlaylist :=
  let allIds := extractIds (paginate (fetch pl.id))
  let found := searchIds.any fun searchId => allIds.any fun trackId =>
    idMatches searchId trackId
  (found,
   { id := pl.id, name := pl.name, tracks := allIds,
     lastModified := tNow, artworkUrl := none, cachedAt := tNow })

/-- Value of the cooperative abort flag when read at suspension step `t`, given
the step `a` at which `closeModal` sets it (`none` = never set). -/
def abortedAt (abortStep : Option Nat) (t : Nat) : Bool :=
  match abortStep with
  | none => false
  | some a => decide (a ≤ t)

/-- The classification loop of `loadPlaylists` (part_000 lines 162-198): a
playlist whose id is in the modified snapshot needs a fetch; otherwise the
first non-unknown cached verdict across the search ids is used, and with a
non-null verdict and caching enabled the playlist is served from cache.
Returns (cache-hit verdicts in listing order, playlists to fetch in listing
order). -/
def classify (st : Storage) (searchIds : List String) (tStart : Int) :
    List ListedPlaylist → List (String × Bool) × List ListedPlaylist
  | [] => ([], [])
  | p :: rest =>
    let tail := classify st searchIds tStart rest
    let needsRefresh := (getModifiedPlaylists st).contains p.id
    let cachedResult :=
      if needsRefresh then none
      else searchIds.findSome? fun sid => isSongInPlaylist st p.id sid tStart
    match cachedResult with
    | some v =>
      if (getSettings st).enabled then ((p.id, v) :: tail.1, tail.2)
      else (tail.1, p :: tail.2)
    | none => (tail.1, p :: tail.2)

/-- Chunking helper: `k` is the number of slots left in the current chunk
(`cur`, kept reversed).  `batches10` below reproduces the
`slice(i, i + batchSize)` loop of part_000 line 211-217 with `batchSize = 10`. -/
def chunkAux : List ListedPlaylist → List ListedPlaylist → Nat → List (List ListedPlaylist)
  | [], cur, _ => if cur.isEmpty then [] else [cur.reverse]
  | x :: xs, cur, 0 => cur.reverse :: chunkAux xs [x] 9
  | x :: xs, cur, k + 1 => chunkAux xs (x :: cur) k

/-- The fixed-size batches (`batchSize = 10`) of the fetch loop. -/
def batches10 (l : List ListedPlaylist) : List (List ListedPlaylist) :=
  chunkAux l [] 10

/-- The batch loop of `loadPlaylists` (part_000 lines 211-249): before each
batch the abort flag is read (one suspension step per batch); an observed abort
returns early with no result.  Each batch maps
`checkSongInPlaylistWithCache` over its playlists, accumulating the verdict
states and the snapshots to cache. -/
def runBatches (fetch : String → Nat → Option (List Track))
    (searchIds : List String) (tStart : Int) (abortStep : Option Nat) :
    List (List ListedPlaylist) → Nat →
    Option (List (String × Bool) × List CachedPlaylist)
  | [], _ => some ([], [])
  | batch :: rest, t =>
    if abortedAt abortStep t then none
    else
      let rs := batch.map fun p =>
        let r := checkSongInPlaylistWithCache fetch p searchIds tStart
        ((p.id, r.1), r.2)
      match runBatches fetch searchIds tStart abortStep rest (t + 1) with
      | none => none
      | some tail => some (rs.map Prod.fst ++ tail.1, rs.map Prod.snd ++ tail.2)

/-- Outcome of the read/fetch phase of one reconciliation pass:
`result = none` when an abort check returned early (the caller then receives
nothing and the write phase is skipped); `toCache` is `playlistsToCache`;
`doClear` records whether `modifiedPlaylistIds.length > 0` held at pass start
(part_000 line 258); `endTime` is the suspension step at which the post-loop
write phase runs. -/
structure PassOutcome where
  result : Option (List (String × Bool))
  toCache : List CachedPlaylist
  doClear : Bool
  endTime : Nat
deriving DecidableEq

/-- The read/fetch phase of `loadPlaylists` (part_000 lines 98-283): the abort
check after the listing fetch (line 124) is step 0; then snapshot of the
Modified-Set (line 154), classification, and the batch loop starting at
step 1. -/
def passPlan (st : Storage) (listing : List ListedPlaylist)
    (searchIds : List String) (fetch : String → Nat → Option (List Track))
    (abortStep : Option Nat) (tStart : Int) : PassOutcome :=
  if abortedAt abortStep 0 then ⟨none, [], false, 0⟩
  else
    let cls := classify st searchIds tStart listing
    let bs := batches10 cls.2
    match runBatches fetch searchIds tStart abortStep bs 1 with
    | none => ⟨none, [], false, 0⟩
    | some sc =>
      ⟨some (cls.1 ++ sc.1), sc.2, !(getModifiedPlaylists st).isEmpty, bs.length + 1⟩

/-- The write phase of `loadPlaylists` (part_000 lines 251-260), applied to the
storage as it stands when the fetch loop has finished: upsert the fetched
snapshots when there are any and caching is enabled, then blind-clear the
Modified-Set when the start snapshot was nonempty.  No abort check guards this
phase. -/
def commitPass (st : Storage) (plan : PassOutcome) (tWrite : Int) : Storage :=
  let st1 :=
    if !plan.toCache.isEmpty && (getSettings st).enabled then
      updatePlaylists st plan.toCache tWrite
    else st
  if plan.doClear then clearModifiedPlaylists st1 else st1

/-- A full sequential (no interleaving) reconciliation pass: plan then commit
on the same storage.  Returns the result handed to the UI and the storage
afterwards. -/
def runPass (st : Storage) (listing : List ListedPlaylist)
    (searchIds : List String) (fetch : String → Nat → Option (List Track))
    (abortStep : Option Nat) (tStart tWrite : Int) :
    Option (List (String × Bool)) × Storage :=
  let plan := passPlan st listing searchIds fetch abortStep tStart
  (plan.result, if plan.result.isSome then commitPass st plan tWrite else st)

/-- Number of batch-level abort checks a pass would perform after the initial
one (one per batch of the classification's fetch list). -/
def batchChecks (st : Storage) (listing : List ListedPlaylist)
    (searchIds : List String) (tStart : Int) : Nat :=
  (batches10 (classify st searchIds tStart listing).2).length

/-- The `for` loop of `applyChanges` (part_000 lines 431-447): apply each
change in order (`ok` tells whether the add/remove call for a playlist id
succeeds); a failed call throws, ending the loop.  Returns (all succeeded,
number of 200ms inter-call delays awaited): the delay runs after every
successful non-final change, with no threshold on the batch size. -/
def applyLoop (ok : String → Bool) : List ChangeItem → Bool × Nat
  | [] => (true, 0)
  | [c] => (ok c.id, 0)
  | c :: c2 :: rest =>
    if ok c.id then
      let r := applyLoop ok (c2 :: rest)
      (r.1, r.2 + 1)
    else (false, 0)

/-- `applyChanges` (part_000 lines 416-459): run the loop; only when every
change succeeded does the code reach `markPlaylistsModified(modifiedIds)`
after the loop (line 450) — the catch of a failed change skips the marking
entirely.  Returns (storage afterwards, full success, delay count). -/
def applyChanges (ok : String → Bool) (changes : List ChangeItem) (st : Storage) :
    Storage × Bool × Nat :=
  let r := applyLoop ok changes
  if r.1 then (markPlaylistsModified st (changes.map (fun c => c.id)), true, r.2)
  else (st, false, r.2)

/-- The match predicate of `removeSongFromPlaylist` (part_000 lines 547-554):
exact match on any of the four identifier fields, or substring containment of
the song id in `id`, `catalogId` or `reportingId`. -/
def removeMatchTest (songId : String) (t : Track) : Bool :=
  t.id == songId || t.catalogId == songId || t.reportingId == songId ||
  t.playParamsId == songId ||
  strIncludes t.id songId || strIncludes t.catalogId songId ||
  strIncludes t.reportingId songId

/-- The `allTracks.filter` pass of `removeSongFromPlaylist`
(part_000 lines 540-561): drop every matching entry while recording the index
of the first match (`foundIndex`). -/
def removeScan (songId : String) : List Track → Option Nat × List Track
  | [] => (none, [])
  | t :: ts =>
    let rest := removeScan songId ts
    if removeMatchTest songId t then (some 0, rest.2)
    else (rest.1.map (fun i => i + 1), t :: rest.2)

/-- The track reference sent in the replace body (part_000 lines 578-581). -/
def trackRef (t : Track) : String × String :=
  (t.id, if t.type == "" then "library-songs" else t.type)

/-- The replacement list construction of `removeSongFromPlaylist`
(part_000 lines 540-595): `none` when no entry matched (`foundIndex === -1`,
nothing to remove, no replace call issued); otherwise the references of the
remaining tracks, sent to the full-list replace call. -/
def removeReplacement (tracks : List Track) (songId : String) :
    Option (List (String × String)) :=
  let scan := removeScan songId tracks
  match scan.1 with
  | none => none
  | some _ => some (scan.2.map trackRef)

/-- Modelled from the spec for comparison with `removeReplacement` (§4.5
Remove: locate the first entry matching the target song and construct a
replacement list with that single entry excluded). -/
def specRemoveFirstMatch (tracks : List Track) (songId : String) :
    Option (List (String × String)) :=
  match tracks.findIdx? (removeMatchTest songId) with
  | none => none
  | some i => some ((tracks.eraseIdx i).map trackRef)

theorem getCache_disabled (st : Storage) (hdis : (getSettings st).enabled = false) :
    getCache st = [] := by
  simp [getCache, hdis]

theorem upsertOne_find_self (now : Int) (p : CachedPlaylist) :
    ∀ cache, (upsertOne now cache p).find? (fun q => q.id == p.id) =
      some { p with cachedAt := now }
  | [] => by simp [upsertOne]
  | q :: rest => by
    by_cases h : q.id == p.id
    · simp [upsertOne, h]
    · simp [upsertOne, h, upsertOne_find_self now p rest]

theorem upsertOne_find_other (now : Int) (p : CachedPlaylist) (i : String)
    (hne : i ≠ p.id) :
    ∀ cache, (upsertOne now cache p).find? (fun q => q.id == i) =
      cache.find? (fun q => q.id == i)
  | [] => by
    have : (p.id == i) = false := by simpa using fun h => hne h.symm
    simp [upsertOne, this]
  | q :: rest => by
    have hpi : (p.id == i) = false := by simpa using fun h => hne h.symm
    by_cases h : q.id == p.id
    · have hqi : (q.id == i) = false := by
        have hq : q.id = p.id := by simpa using h
        simpa [hq] using fun h2 => hne h2.symm
      simp [upsertOne, h, hpi, hqi]
    · by_cases hqi : q.id == i
      · simp [upsertOne, h, hqi]
      · simp [upsertOne, h, hqi, upsertOne_find_other now p i hne rest]

theorem foldl_upsert_find_other (now : Int) (i : String) :
    ∀ (ps : List CachedPlaylist) (cache : List CachedPlaylist),
      i ∉ ps.map CachedPlaylist.id →
      (ps.foldl (upsertOne now) cache).find? (fun q => q.id == i) =
        cache.find? (fun q => q.id == i)
  | [], cache, _ => rfl
  | p :: ps, cache, hni => by
    have hne : i ≠ p.id := fun h => hni (by simp [h])
    have hni2 : i ∉ ps.map CachedPlaylist.id := fun h => hni (by simp [h])
    calc ((p :: ps).foldl (upsertOne now) cache).find? (fun q => q.id == i)
        = (ps.foldl (upsertOne now) (upsertOne now cache p)).find? (fun q => q.id == i) := rfl
      _ = (upsertOne now cache p).find? (fun q => q.id == i) :=
          foldl_upsert_find_other now i ps _ hni2
      _ = cache.find? (fun q => q.id == i) := upsertOne_find_other now p i hne cache

theorem foldl_upsert_find_mem (now : Int) (i : String) :
    ∀ (ps : List CachedPlaylist) (cache : List CachedPlaylist),
      i ∈ ps.map CachedPlaylist.id →
      ∃ e, (ps.foldl (upsertOne now) cache).find? (fun q => q.id == i) = some e ∧
        e.cachedAt = now
  | p :: ps, cache, hmem => by
    by_cases hm : i ∈ ps.map CachedPlaylist.id
    · exact foldl_upsert_find_mem now i ps (upsertOne now cache p) hm
    · have hip : i = p.id := by
        rcases List.mem_map.mp hmem with ⟨q, hq, hqi⟩
        rcases List.mem_cons.mp hq with h | h
        · rw [← hqi, h]
        · exact absurd (List.mem_map.mpr ⟨q, h, hqi⟩) hm
      refine ⟨{ p with cachedAt := now }, ?_, rfl⟩
      calc ((p :: ps).foldl (upsertOne now) cache).find? (fun q => q.id == i)
          = (ps.foldl (upsertOne now) (upsertOne now cache p)).find? (fun q => q.id == i) := rfl
        _ = (upsertOne now cache p).find? (fun q => q.id == i) :=
            foldl_upsert_find_other now i ps _ hm
        _ = some { p with cachedAt := now } := by rw [hip]; exact upsertOne_find_self now p cache

theorem chunkAux_flatten :
    ∀ (l cur : List ListedPlaylist) (k : Nat),
      (chunkAux l cur k).flatten = cur.reverse ++ l
  | [], cur, k => by cases cur <;> simp [chunkAux]
  | x :: xs, cur, 0 => by
    simp [chunkAux, chunkAux_flatten xs [x] 9]
  | x :: xs, cur, k + 1 => by
    simp [chunkAux, chunkAux_flatten xs (x :: cur) k]

theorem batches10_flatten (l : List ListedPlaylist) : (batches10 l).flatten = l := by
  simpa using chunkAux_flatten l [] 10

theorem runBatches_toCache (fetch : String → Nat → Option (List Track))
    (sids : List String) (tS : Int) (aStep : Option Nat) :
    ∀ (bs : List (List ListedPlaylist)) (t : Nat)
      (sc : List (String × Bool) × List CachedPlaylist),
      runBatches fetch sids tS aStep bs t = some sc →
      sc.2 = bs.flatten.map
        (fun p => (checkSongInPlaylistWithCache fetch p sids tS).2)
  | [], t, sc, h => by
    simp [runBatches] at h
    simp [← h]
  | batch :: rest, t, sc, h => by
    by_cases ha : abortedAt aStep t
    · simp [runBatches, ha] at h
    · rw [show runBatches fetch sids tS aStep (batch :: rest) t =
        (match runBatches fetch sids tS aStep rest (t + 1) with
         | none => none
         | some tail => some
            ((batch.map fun p =>
              let r := checkSongInPlaylistWithCache fetch p sids tS
              ((p.id, r.1), r.2)).map Prod.fst ++ tail.1,
             (batch.map fun p =>
              let r := checkSongInPlaylistWithCache fetch p sids tS
              ((p.id, r.1), r.2)).map Prod.snd ++ tail.2)) from by
          simp [runBatches, ha]] at h
      cases hrb : runBatches fetch sids tS aStep rest (t + 1) with
      | none => rw [hrb] at h; simp at h
      | some tail =>
        rw [hrb] at h
        simp only [Option.some.injEq] at h
        have ih := runBatches_toCache fetch sids tS aStep rest (t + 1) tail hrb
        rw [← h]
        simp [List.map_map, Function.comp, ih]

theorem runBatches_abort (fetch : String → Nat → Option (List Track))
    (sids : List String) (tS : Int) (a : Nat) :
    ∀ (bs : List (List ListedPlaylist)) (t : Nat),
      t ≤ a → a < t + bs.length →
      runBatches fetch sids tS (some a) bs t = none
  | [], t, h1, h2 => by simp at h2; omega
  | batch :: rest, t, h1, h2 => by
    by_cases ha : a ≤ t
    · simp [runBatches, abortedAt, ha]
    · have hf : abortedAt (some a) t = false := by simp [abortedAt]; omega
      have ih := runBatches_abort fetch sids tS a rest (t + 1)
        (by omega) (by simp at h2 ⊢; omega)
      simp [runBatches, hf, ih]

theorem markPlaylistsModified_settingsRec (st : Storage) (ids : List String) :
    (markPlaylistsModified st ids).settingsRec = st.settingsRec := by
  cases h : st.modifiedRec <;> simp [markPlaylistsModified, h]

theorem markPlaylistsModified_cacheRec (st : Storage) (ids : List String) :
    (markPlaylistsModified st ids).cacheRec = st.cacheRec := by
  cases h : st.modifiedRec <;> simp [markPlaylistsModified, h]

theorem getSettings_mark (st : Storage) (ids : List String) :
    getSettings (markPlaylistsModified st ids) = getSettings st := by
  unfold getSettings
  rw [markPlaylistsModified_settingsRec]

theorem getCache_mark (st : Storage) (ids : List String) :
    getCache (markPlaylistsModified st ids) = getCache st := by
  unfold getCache
  rw [getSettings_mark, markPlaylistsModified_cacheRec]

theorem classify_mem_toFetch (st : Storage) (sids : List String) (tS : Int) :
    ∀ (listing : List ListedPlaylist) (p : ListedPlaylist), p ∈ listing →
      (getModifiedPlaylists st).contains p.id = true →
      p ∈ (classify st sids tS listing).2
  | q :: rest, p, hmem, hc => by
    rcases List.mem_cons.mp hmem with heq | htail
    · subst heq
      have hcm : p.id ∈ getModifiedPlaylists st := by simpa using hc
      simp [classify, hcm]
    · have ih := classify_mem_toFetch st sids tS rest p htail hc
      by_cases hq : q.id ∈ getModifiedPlaylists st
      · simp [classify, hq]
        exact Or.inr ih
      · cases hcr : List.findSome? (fun sid => isSongInPlaylist st q.id sid tS) sids with
        | none =>
          simp [classify, hq, hcr]
          exact Or.inr ih
        | some v =>
          by_cases he : (getSettings st).enabled = true
          · simpa [classify, hq, hcr, he] using ih
          · simp [classify, hq, hcr, he]
            exact Or.inr ih

theorem paginateGo_length (fetch : Nat → Option (List Track))
    (hb : ∀ o ts, fetch o = some ts → ts.length ≤ 100) :
    ∀ (left offset : Nat) (acc : List Track),
      (paginateGo fetch left offset acc).length ≤ acc.length + 100 * (left + 1) := by
  intro left
  induction left with
  | zero =>
    intro offset acc
    rw [paginateGo]
    cases hf : fetch offset with
    | none => simp
    | some ts =>
      have hts := hb offset ts hf
      by_cases he : ts.isEmpty
      · simp [he]
      · simp [he]
        omega
  | succ left2 ih =>
    intro offset acc
    rw [paginateGo]
    cases hf : fetch offset with
    | none => simp
    | some ts =>
      have hts := hb offset ts hf
      by_cases he : ts.isEmpty
      · simp [he]
      · by_cases hl : ts.length == 100
        · have := ih (offset + 100) (acc ++ ts)
          simp only [List.length_append] at this
          simp [he, hl]
          omega
        · simp [he, hl]
          omega

theorem removeScan_snd (songId : String) :
    ∀ tracks, (removeScan songId tracks).2 =
      tracks.filter (fun t => !removeMatchTest songId t)
  | [] => rfl
  | t :: ts => by
    by_cases h : removeMatchTest songId t
    · simp [removeScan, h, removeScan_snd songId ts]
    · simp [removeScan, h, removeScan_snd songId ts]

theorem removeScan_fst_isSome (songId : String) :
    ∀ tracks, (removeScan songId tracks).1.isSome =
      tracks.any (removeMatchTest songId)
  | [] => rfl
  | t :: ts => by
    by_cases h : removeMatchTest songId t
    · simp [removeScan, h]
    · simp [removeScan, h, ← removeScan_fst_isSome songId ts]

theorem applyLoop_all_ok (ok : String → Bool) :
    ∀ changes, (∀ c ∈ changes, ok c.id = true) →
      applyLoop ok changes = (true, changes.length - 1)
  | [], _ => rfl
  | [c], h => by simp [applyLoop, h c (by simp)]
  | c :: c2 :: rest, h => by
    have hc := h c (by simp)
    have ih := applyLoop_all_ok ok (c2 :: rest) (fun d hd => h d (by simp [hd]))
    simp [applyLoop, hc, ih]

/-- An empty durable store: no persisted cache, settings or modified-set. -/
def stEmpty : Storage := ⟨.absent, .absent, .absent⟩

/-- A cached entry just inside the expiration window for `now = 1000000` and
the default 5-minute expiration: `cachedAt = now - 5 * 60000 + 1000`. -/
def entryFresh : CachedPlaylist := ⟨"G", "Gym", ["s"], 0, none, 701000⟩

/-- A cached entry just outside the expiration window for `now = 1000000` and
the default 5-minute expiration: `cachedAt = now - 5 * 60000 - 1000`. -/
def entryStale : CachedPlaylist := ⟨"G", "Gym", ["s"], 0, none, 699000⟩

/-- C7: `getCachedPlaylist` returns the stored entry exactly when it is
present, caching is enabled and `now - cachedAt ≤ expirationMinutes * 60s`
(the source tests `age > expirationMs` and lazily reports absent without
touching the store — the read is a pure function of the storage); at the
boundary, an entry one second past the window is absent and one second inside
it is present. -/
theorem C7_get_expiration_contract :
    (∀ (st : Storage) (pid : String) (now : Int) (p : CachedPlaylist),
      getCachedPlaylist st pid now = some p ↔
        ((getSettings st).enabled = true ∧
         (readStoredCache st.cacheRec).find? (fun q => q.id == pid) = some p ∧
         now - p.cachedAt ≤ (getSettings st).expirationMinutes * 60 * 1000)) ∧
    getCachedPlaylist ⟨.list [entryStale], .absent, .absent⟩ "G" 1000000 = none ∧
    getCachedPlaylist ⟨.list [entryFresh], .absent, .absent⟩ "G" 1000000 =
      some entryFresh := by
  refine ⟨?_, by decide, by decide⟩
  intro st pid now p
  unfold getCachedPlaylist getCache
  by_cases he : (getSettings st).enabled = true
  · simp only [he, if_true]
    cases hf : (readStoredCache st.cacheRec).find? (fun q => q.id == pid) with
    | none => simp
    | some q =>
      by_cases hlt : (getSettings st).expirationMinutes * 60 * 1000 < now - q.cachedAt
      · simp only [hlt, if_true]
        constructor
        · intro h
          exact absurd h (by simp)
        · rintro ⟨-, hq, hle⟩
          have hqp : q = p := by simpa using hq
          subst hqp
          omega
      · simp only [hlt, if_false]
        constructor
        · intro h
          have hqp : q = p := by simpa using h
          subst hqp
          exact ⟨by simp, rfl, by omega⟩
        · rintro ⟨-, hq, -⟩
          exact hq
  · have he2 : (getSettings st).enabled = false := by
      cases h : (getSettings st).enabled
      · rfl
      · exact absurd h he
    simp [he2]

/-- C9: `getSettings` returns the defaults merged under any parseable
persisted fields; a missing or unparseable persisted record yields exactly
the defaults, surfacing no error. -/
theorem C9_settings_defaults :
    (∀ (cr : StoredCache) (mr : StoredModified),
      getSettings ⟨cr, .absent, mr⟩ = { enabled := true, expirationMinutes := 5 } ∧
      getSettings ⟨cr, .corrupt, mr⟩ = { enabled := true, expirationMinutes := 5 } ∧
      ∀ (e : Option Bool) (m : Option Int),
        getSettings ⟨cr, .record e m, mr⟩ =
          { enabled := e.getD true, expirationMinutes := m.getD 5 }) :=
  fun _ _ => ⟨rfl, rfl, fun _ _ => rfl⟩

/-- C10: with caching disabled, `getStats` reports 0 total playlists, 0
expired playlists and a null oldest timestamp regardless of the stored
entries, while the modified count still comes from the durable Modified-Set
and the size estimate still comes from the persisted cache text. -/
theorem C10_stats_disabled (st : Storage) (now : Int)
    (hdis : (getSettings st).enabled = false) :
    getStats st now =
      { totalPlaylists := 0, expiredPlaylists := 0,
        modifiedPlaylists := (getModifiedPlaylists st).length,
        cacheSizeKB := storedCacheLen st.cacheRec / 1024,
        oldestCache := none } := by
  have hc := getCache_disabled st hdis
  simp [getStats, hc]

/-- Witness for C10: a store with two persisted entries and one modified id,
caching disabled. -/
def stDisabledFull : Storage :=
  ⟨.list [entryFresh, entryStale], .record (some false) none, .list ["A"]⟩

/-- C10 witness: the theorem applied to `stDisabledFull`. -/
theorem C10_stats_disabled_witness :
    (getSettings stDisabledFull).enabled = false ∧
    getStats stDisabledFull 1000000 =
      { totalPlaylists := 0, expiredPlaylists := 0,
        modifiedPlaylists := (getModifiedPlaylists stDisabledFull).length,
        cacheSizeKB := storedCacheLen stDisabledFull.cacheRec / 1024,
        oldestCache := none } :=
  ⟨by decide, C10_stats_disabled stDisabledFull 1000000 (by decide)⟩

/-- C8: while caching is disabled every cache read misses (`getCache`,
`getCachedPlaylist`, `isSongInPlaylist`) and `updatePlaylists` is a no-op
leaving the storage untouched; re-enabling via `saveSettings` with no
intervening write leaves the stored cache record identical and makes the same
entries visible to reads again, provided they are unexpired under their
original `cachedAt`. -/
theorem C8_disabled_reads_miss_writes_suppressed (st : Storage)
    (hdis : (getSettings st).enabled = false) :
    getCache st = [] ∧
    (∀ pid now, getCachedPlaylist st pid now = none) ∧
    (∀ pid sid now, isSongInPlaylist st pid sid now = none) ∧
    (∀ ps now, updatePlaylists st ps now = st) ∧
    ((saveSettings st (some true) none).cacheRec = st.cacheRec ∧
     getSettings (saveSettings st (some true) none) =
       { enabled := true, expirationMinutes := (getSettings st).expirationMinutes } ∧
     ∀ pid now p,
       (readStoredCache st.cacheRec).find? (fun q => q.id == pid) = some p →
       now - p.cachedAt ≤ (getSettings st).expirationMinutes * 60 * 1000 →
       getCachedPlaylist (saveSettings st (some true) none) pid now = some p) := by
  have hc := getCache_disabled st hdis
  have hget : ∀ pid now, getCachedPlaylist st pid now = none := by
    intro pid now
    simp [getCachedPlaylist, hc]
  have hsets : getSettings (saveSettings st (some true) none) =
      { enabled := true, expirationMinutes := (getSettings st).expirationMinutes } := rfl
  refine ⟨hc, hget, ?_, ?_, rfl, hsets, ?_⟩
  · intro pid sid now
    simp [isSongInPlaylist, hget]
  · intro ps now
    simp [updatePlaylists, hdis]
  · intro pid now p hfind hle
    have hen2 : (getSettings (saveSettings st (some true) none)).enabled = true := by
      rw [hsets]
    have hcr2 : (saveSettings st (some true) none).cacheRec = st.cacheRec := rfl
    have hcache2 : getCache (saveSettings st (some true) none) =
        readStoredCache st.cacheRec := by
      simp [getCache, hen2, hcr2]
    have hexp : (getSettings (saveSettings st (some true) none)).expirationMinutes =
        (getSettings st).expirationMinutes := by rw [hsets]
    have hnlt : ¬ (getSettings st).expirationMinutes * 60 * 1000 < now - p.cachedAt := by
      omega
    simp [getCachedPlaylist, hcache2, hfind, hexp, hnlt]

/-- A disabled store holding one unexpired entry, for the C8 witness. -/
def stDisabledOne : Storage :=
  ⟨.list [entryFresh], .record (some false) (some 5), .absent⟩

/-- C8 witness: the theorem applied to `stDisabledOne` — the read misses and
the write is suppressed while disabled, and the same entry reappears after
re-enabling. -/
theorem C8_disabled_reads_miss_writes_suppressed_witness :
    getCachedPlaylist stDisabledOne "G" 1000000 = none ∧
    updatePlaylists stDisabledOne [entryStale] 7 = stDisabledOne ∧
    getCachedPlaylist (saveSettings stDisabledOne (some true) none) "G" 1000000 =
      some entryFresh :=
  ⟨(C8_disabled_reads_miss_writes_suppressed stDisabledOne (by decide)).2.1 "G" 1000000,
   (C8_disabled_reads_miss_writes_suppressed stDisabledOne (by decide)).2.2.2.1 [entryStale] 7,
   (C8_disabled_reads_miss_writes_suppressed stDisabledOne (by decide)).2.2.2.2.2.2
     "G" 1000000 entryFresh (by decide) (by decide)⟩

/-- Success function for a batch where the call on playlist "A" succeeds and
the call on playlist "B" fails. -/
def okOnlyA : String → Bool := fun i => i == "A"

/-- C1: evaluation of `applyChanges` at the failing input — a two-change batch
whose first change (playlist "A") succeeds and whose second (playlist "B")
fails.  `markPlaylistsModified` sits after the loop and the catch skips it, so
the Modified-Set stays empty: playlist "A" is NOT flagged although its remote
change succeeded, contradicting the claimed (and specified) immediate
per-success marking. -/
theorem C1_partial_failure_leaves_modified_set_empty :
    okOnlyA "A" = true ∧ okOnlyA "B" = false ∧
    (applyChanges okOnlyA [⟨"A", true⟩, ⟨"B", true⟩] stEmpty).2.1 = false ∧
    (applyChanges okOnlyA [⟨"A", true⟩, ⟨"B", true⟩] stEmpty).1 = stEmpty ∧
    getModifiedPlaylists (applyChanges okOnlyA [⟨"A", true⟩, ⟨"B", true⟩] stEmpty).1
      = [] := by
  decide

/-- C6 counterexample: a batch of 2 changes (below the claimed threshold of 5)
still awaits one 200ms inter-call delay, because the source applies the delay
after every non-final change with no threshold test. -/
theorem C6_delay_without_threshold_cex :
    (applyChanges (fun _ => true) [⟨"A", true⟩, ⟨"B", false⟩] stEmpty).2.2 = 1 := by
  decide

/-- C6 amended: calls are issued sequentially and the 200ms delay is applied
after every change except the last, whatever the batch size; with every call
succeeding, a batch of n changes awaits n - 1 delays. -/
theorem C6_delay_between_all_consecutive (ok : String → Bool)
    (changes : List ChangeItem) (st : Storage)
    (hok : ∀ c ∈ changes, ok c.id = true) :
    (applyChanges ok changes st).2.1 = true ∧
    (applyChanges ok changes st).2.2 = changes.length - 1 := by
  have h := applyLoop_all_ok ok changes hok
  simp [applyChanges, h]

/-- C6 witness: the amended theorem applied to a concrete all-success batch of
two changes, which awaits exactly one delay. -/
theorem C6_delay_between_all_consecutive_witness :
    (applyChanges (fun _ => true) [⟨"C", true⟩, ⟨"D", true⟩] stEmpty).2.1 = true ∧
    (applyChanges (fun _ => true) [⟨"C", true⟩, ⟨"D", true⟩] stEmpty).2.2 =
      ([⟨"C", true⟩, ⟨"D", true⟩] : List ChangeItem).length - 1 :=
  C6_delay_between_all_consecutive (fun _ => true) [⟨"C", true⟩, ⟨"D", true⟩]
    stEmpty (fun _ _ => rfl)

/-- A track matching song "s1" by its `id` field. -/
def tMatchFirst : Track := ⟨"s1", "", "", "", "x1t"⟩

/-- A track not matching song "s1" under any identifier form. -/
def tKeep : Track := ⟨"x2", "", "", "", "x2t"⟩

/-- A later track also matching song "s1", via its `catalogId` field. -/
def tMatchLater : Track := ⟨"x3", "", "s1", "", "x3t"⟩

/-- C4 counterexample: on a fetched list with two matching entries, the
source's `filter` drops BOTH matches, while the claimed behaviour (exclude
only the first match, retain every later entry including later matches) keeps
the second matching entry; the two replacement lists differ. -/
theorem C4_later_match_also_removed_cex :
    removeReplacement [tMatchFirst, tKeep, tMatchLater] "s1" =
      some [("x2", "x2t")] ∧
    specRemoveFirstMatch [tMatchFirst, tKeep, tMatchLater] "s1" =
      some [("x2", "x2t"), ("x3", "x3t")] ∧
    removeReplacement [tMatchFirst, tKeep, tMatchLater] "s1" ≠
      specRemoveFirstMatch [tMatchFirst, tKeep, tMatchLater] "s1" := by
  decide

/-- C4 amended: the replacement list exists exactly when some fetched entry
matches the target song, and it consists of the references of every
NON-matching entry in their original order — i.e. every matching entry (the
first and any later ones) is excluded, and no replace call is issued when
nothing matches. -/
theorem C4_remove_excludes_all_matches (tracks : List Track) (songId : String) :
    removeReplacement tracks songId =
      if tracks.any (removeMatchTest songId) then
        some ((tracks.filter (fun t => !removeMatchTest songId t)).map trackRef)
      else none := by
  have hsnd := removeScan_snd songId tracks
  have hfst := removeScan_fst_isSome songId tracks
  unfold removeReplacement
  by_cases h : tracks.any (removeMatchTest songId)
  · rw [h] at hfst
    cases hs : (removeScan songId tracks).1 with
    | none => rw [hs] at hfst; simp at hfst
    | some i => simp [hs, hsnd, h]
  · have h2 : tracks.any (removeMatchTest songId) = false := by
      cases ha : tracks.any (removeMatchTest songId)
      · rfl
      · exact absurd ha h
    rw [h2] at hfst
    cases hs : (removeScan songId tracks).1 with
    | none => simp [hs, h2]
    | some i => rw [hs] at hfst; simp at hfst

/-- A track used to populate the synthetic 1200-track playlist. -/
def sampleTrack : Track := ⟨"t", "", "", "", ""⟩

/-- A remote playlist with 1200 tracks: every page at offset < 1200 is a full
page of 100 tracks. -/
def bigFetch : Nat → Option (List Track) := fun o =>
  if o < 1200 then some (List.replicate 100 sampleTrack) else some []

set_option maxRecDepth 100000 in
/-- C5 counterexample: on a 1200-track playlist the pagination loop collects
1100 tracks, not at most 1000 — the `offset > 1000` break runs only after the
offset increment, so an 11th full page (offset 1000) is still fetched. -/
theorem C5_cap_exceeds_1000_cex :
    (paginate bigFetch).length = 1100 ∧ 1000 < (paginate bigFetch).length := by
  decide

/-- C5 amended: pagination proceeds in pages of 100 and stops on a failed
fetch (treated as end of pagination, returning the tracks collected so far,
not an error), on a short or empty page, or at the hard cap — which is 1100
tracks (11 pages), not 1000, because the `offset > 1000` break runs after the
offset increment.  Whenever every page holds at most the page size of 100
tracks, at most 1100 tracks are collected. -/
theorem C5_pagination_behavior (fetch : Nat → Option (List Track))
    (hb : ∀ o ts, fetch o = some ts → ts.length ≤ 100) :
    (paginate fetch).length ≤ 1100 ∧
    (∀ left offset acc, fetch offset = none → paginateGo fetch left offset acc = acc) ∧
    (∀ left offset acc ts, fetch offset = some ts → ts ≠ [] → ¬ ts.length = 100 →
      paginateGo fetch (left + 1) offset acc = acc ++ ts) := by
  refine ⟨?_, ?_, ?_⟩
  · have h := paginateGo_length fetch hb 10 0 []
    simpa [paginate] using h
  · intro left offset acc hf
    rw [paginateGo, hf]
  · intro left offset acc ts hf hne hlen
    rw [paginateGo, hf]
    simp [hne, hlen]

/-- C5 witness: the amended theorem applied to a remote list whose first page
is already empty. -/
theorem C5_pagination_behavior_witness :
    (paginate (fun _ => some ([] : List Track))).length ≤ 1100 :=
  (C5_pagination_behavior (fun _ => some []) (fun o ts h => by
    cases h
    simp)).1

/-- A remote whose every track-list page is empty (each fetched playlist comes
back with no tracks). -/
def fetchEmpty : String → Nat → Option (List Track) := fun _ _ => some []

/-- The plan of a pass over one cache-missing playlist "P" whose abort flag is
set at step 2 — i.e. while the single (final) batch is in flight, after the
batch-start check at step 1. -/
def planAbortLate : PassOutcome :=
  passPlan stEmpty [⟨"P", "N"⟩] ["s"] fetchEmpty (some 2) 0

/-- C3 counterexample: the pass whose abort flag becomes set during the final
batch (after that batch's step-1 check) still completes its write phase: at
the write step the abort flag reads true, yet the upsert into the cache table
happens — the persisted cache record changes — so an aborted pass can make a
durable write. -/
theorem C3_upsert_after_abort_cex :
    planAbortLate.result.isSome = true ∧
    abortedAt (some 2) planAbortLate.endTime = true ∧
    (commitPass stEmpty planAbortLate 1).cacheRec ≠ stEmpty.cacheRec := by
  decide

/-- C3 amended: the abort flag is checked once after the listing fetch and
before each batch — not before each page fetch — and when one of those checks
observes the flag (the flag is set at or before the last batch-start check)
the pass returns no result and leaves the storage untouched: no upsert and no
Modified-Set clear occur.  An abort set after the last check does not prevent
the end-of-pass writes. -/
theorem C3_abort_check_stops_writes (st : Storage) (listing : List ListedPlaylist)
    (searchIds : List String) (fetch : String → Nat → Option (List Track))
    (a : Nat) (tStart tWrite : Int)
    (hcaught : a ≤ batchChecks st listing searchIds tStart) :
    (passPlan st listing searchIds fetch (some a) tStart).result = none ∧
    commitPass st (passPlan st listing searchIds fetch (some a) tStart) tWrite = st := by
  have hplan : passPlan st listing searchIds fetch (some a) tStart =
      ⟨none, [], false, 0⟩ := by
    unfold passPlan
    by_cases h0 : a = 0
    · simp [abortedAt, h0]
    · have h1 : abortedAt (some a) 0 = false := by
        simp [abortedAt]
        omega
      have hrb : runBatches fetch searchIds tStart (some a)
          (batches10 (classify st searchIds tStart listing).2) 1 = none := by
        apply runBatches_abort
        · omega
        · unfold batchChecks at hcaught
          omega
      simp [h1, hrb]
  rw [hplan]
  exact ⟨rfl, rfl⟩

/-- C3 witness: the amended theorem applied to a one-playlist pass whose abort
flag is set at step 1, the check before the only batch: the pass yields no
result and the storage is unchanged. -/
theorem C3_abort_check_stops_writes_witness :
    (passPlan stEmpty [⟨"Q", "N"⟩] ["s"] fetchEmpty (some 1) 0).result = none ∧
    commitPass stEmpty (passPlan stEmpty [⟨"Q", "N"⟩] ["s"] fetchEmpty (some 1) 0) 1
      = stEmpty :=
  C3_abort_check_stops_writes stEmpty [⟨"Q", "N"⟩] ["s"] fetchEmpty 1 0 1 (by decide)

/-- A store whose Modified-Set snapshot is exactly ["A"]. -/
def stModA : Storage := ⟨.absent, .absent, .list ["A"]⟩

/-- The listing containing the modified playlist "A". -/
def listA : List ListedPlaylist := [⟨"A", "N"⟩]

/-- A completed (never aborted) pass over `stModA` and `listA`. -/
def planOverA : PassOutcome := passPlan stModA listA ["s"] fetchEmpty none 0

/-- C2 counterexample: during the pass a concurrent mutation marks playlist
"B" in the durable Modified-Set; the completed pass then runs
`clearModifiedPlaylists`, a blind full `removeItem` rather than an id-by-id
clear of its start snapshot ["A"], so the concurrently-marked id "B" does NOT
remain in the set afterwards — the set ends empty. -/
theorem C2_concurrent_mark_lost_cex :
    planOverA.result.isSome = true ∧
    "B" ∈ getModifiedPlaylists (markPlaylistsModified stModA ["B"]) ∧
    getModifiedPlaylists (commitPass (markPlaylistsModified stModA ["B"]) planOverA 1)
      = [] := by
  decide

theorem commitPass_run (stM : Storage) (res : Option (List (String × Bool)))
    (toC : List CachedPlaylist) (endT : Nat) (tW : Int)
    (hne : toC.isEmpty = false) (hen : (getSettings stM).enabled = true) :
    commitPass stM ⟨res, toC, true, endT⟩ tW =
      clearModifiedPlaylists (updatePlaylists stM toC tW) := by
  simp [commitPass, hne, hen]

theorem updatePlaylists_enabled (stM : Storage) (ps : List CachedPlaylist)
    (now : Int) (hen : (getSettings stM).enabled = true) :
    updatePlaylists stM ps now =
      { stM with cacheRec := .list (ps.foldl (upsertOne now) (getCache stM)) } := by
  simp [updatePlaylists, hen]

/-- C2 amended: a completed (non-cancelled) pass whose start snapshot is
nonempty clears the ENTIRE Modified-Set — a blind full clear, so ids marked
concurrently during the pass are removed as well; afterwards the set is empty
(in particular every snapshot id is absent), and each snapshot id present in
the listing has, with caching enabled, a cache entry freshly stamped with the
pass's write time, newer than the pass start. -/
theorem C2_full_clear_after_completed_pass (st : Storage)
    (listing : List ListedPlaylist) (searchIds : List String)
    (fetch : String → Nat → Option (List Track)) (abortStep : Option Nat)
    (tStart tWrite : Int) (concMarks : List String) (pid : String)
    (hdone : (passPlan st listing searchIds fetch abortStep tStart).result.isSome = true)
    (hmod : pid ∈ getModifiedPlaylists st)
    (hlist : pid ∈ listing.map ListedPlaylist.id)
    (hen : (getSettings st).enabled = true)
    (htime : tStart < tWrite) :
    getModifiedPlaylists
      (commitPass (markPlaylistsModified st concMarks)
        (passPlan st listing searchIds fetch abortStep tStart) tWrite) = [] ∧
    ∃ e, (readStoredCache
        (commitPass (markPlaylistsModified st concMarks)
          (passPlan st listing searchIds fetch abortStep tStart) tWrite).cacheRec).find?
        (fun q => q.id == pid) = some e ∧ tStart < e.cachedAt := by
  by_cases h0 : abortedAt abortStep 0
  · rw [show passPlan st listing searchIds fetch abortStep tStart =
      ⟨none, [], false, 0⟩ from by unfold passPlan; rw [if_pos h0]] at hdone
    simp at hdone
  · cases hrb : runBatches fetch searchIds tStart abortStep
        (batches10 (classify st searchIds tStart listing).2) 1 with
    | none =>
      rw [show passPlan st listing searchIds fetch abortStep tStart =
        ⟨none, [], false, 0⟩ from by
          unfold passPlan
          rw [if_neg h0]
          simp only [hrb]] at hdone
      simp at hdone
    | some sc =>
      have hplan : passPlan st listing searchIds fetch abortStep tStart =
          ⟨some ((classify st searchIds tStart listing).1 ++ sc.1), sc.2,
            !(getModifiedPlaylists st).isEmpty,
            (batches10 (classify st searchIds tStart listing).2).length + 1⟩ := by
        unfold passPlan
        rw [if_neg h0]
        simp only [hrb]
      have hclear : (!(getModifiedPlaylists st).isEmpty) = true := by
        have : getModifiedPlaylists st ≠ [] := List.ne_nil_of_mem hmod
        simpa [List.isEmpty_iff] using this
      rcases List.mem_map.mp hlist with ⟨p, hpmem, hpid⟩
      have hcont : (getModifiedPlaylists st).contains p.id = true := by
        rw [hpid]
        exact List.elem_eq_true_of_mem hmod
      have hfetchmem : p ∈ (classify st searchIds tStart listing).2 :=
        classify_mem_toFetch st searchIds tStart listing p hpmem hcont
      have hsc2 : sc.2 = ((classify st searchIds tStart listing).2).map
          (fun q => (checkSongInPlaylistWithCache fetch q searchIds tStart).2) := by
        have h := runBatches_toCache fetch searchIds tStart abortStep
          (batches10 (classify st searchIds tStart listing).2) 1 sc hrb
        rwa [batches10_flatten] at h
      have hcachemem : pid ∈ sc.2.map CachedPlaylist.id := by
        rw [hsc2, List.map_map]
        refine List.mem_map.mpr ⟨p, hfetchmem, ?_⟩
        rw [← hpid]
        rfl
      have hscne : sc.2.isEmpty = false := by
        rcases List.mem_map.mp hcachemem with ⟨e0, he0, -⟩
        rcases hsc : sc.2 with _ | ⟨x, xs⟩
        · rw [hsc] at he0
          cases he0
        · rfl
      have hsetMid : getSettings (markPlaylistsModified st concMarks) = getSettings st :=
        getSettings_mark st concMarks
      have henMid : (getSettings (markPlaylistsModified st concMarks)).enabled = true := by
        rw [hsetMid]
        exact hen
      rw [hplan]
      rw [show (⟨some ((classify st searchIds tStart listing).1 ++ sc.1), sc.2,
            !(getModifiedPlaylists st).isEmpty,
            (batches10 (classify st searchIds tStart listing).2).length + 1⟩ : PassOutcome) =
          ⟨some ((classify st searchIds tStart listing).1 ++ sc.1), sc.2, true,
            (batches10 (classify st searchIds tStart listing).2).length + 1⟩ from by
        rw [hclear]]
      rw [commitPass_run _ _ _ _ _ hscne henMid]
      rw [updatePlaylists_enabled _ _ _ henMid]
      rcases foldl_upsert_find_mem tWrite pid sc.2
          (getCache (markPlaylistsModified st concMarks)) hcachemem with ⟨e, hf, hca⟩
      refine ⟨rfl, e, ?_, ?_⟩
      · exact hf
      · rw [hca]
        exact htime

/-- C2 witness: the amended theorem applied to a completed pass over a store
whose snapshot is ["A"] with "A" in the listing — afterwards the Modified-Set
is empty and the entry for "A" is stamped with the write time 1, newer than
the pass start 0. -/
theorem C2_full_clear_after_completed_pass_witness :
    getModifiedPlaylists
      (commitPass (markPlaylistsModified stModA [])
        (passPlan stModA listA ["s"] fetchEmpty none 0) 1) = [] ∧
    ∃ e, (readStoredCache
        (commitPass (markPlaylistsModified stModA [])
          (passPlan stModA listA ["s"] fetchEmpty none 0) 1).cacheRec).find?
        (fun q => q.id == "A") = some e ∧ (0 : Int) < e.cachedAt :=
  C2_full_clear_after_completed_pass stModA listA ["s"] fetchEmpty none 0 1 [] "A"
    (by decide) (by decide) (by decide) (by decide) (by decide)
